import Mathlib

/-!
Verification development for the P09-beamline autoprocessing dispatcher.

The Python sources under `autoprocessing/` are shallowly embedded here:
strings are `List Char` (converted from `String` at the boundaries),
fallible code returns `Except`/`Option`, and the stateful dispatcher
`run` is modelled as a pure function from an explicit folder state to a
trace of filesystem/scheduler events plus an optional uncaught Python
exception.  Every definition mirrors a named function of the repository;
deviations (values, not control flow, abstracted) are noted in the doc
comment of the definition concerned.
-/

namespace P09

/-! ## Python string helpers

These model the exact `str` operations used by the sources:
`str.strip`, `str.lower`, `s.split(':')[-1]`, `s.split(':', 1)[-1]`,
`int(s)`, and the `in` substring test.  Only ASCII text appears in the
descriptor files, so the ASCII behaviour of these operations is the one
embedded. -/

/-- Whitespace characters recognised by Python `str.strip()` (ASCII part). -/
def pyIsSpace (c : Char) : Bool :=
  c = ' ' || c = '\t' || c = '\n' || c = '\r' || c = '\x0b' || c = '\x0c'

/-- Python `s.strip()`. -/
def pyStrip (cs : List Char) : List Char :=
  ((cs.dropWhile pyIsSpace).reverse.dropWhile pyIsSpace).reverse

/-- Python `s.lower()` (ASCII). -/
def pyLower (cs : List Char) : List Char :=
  cs.map Char.toLower

/-- Python `s.split(':')[-1]`: the text after the last colon, or the whole
string when no colon occurs. -/
def afterLastColon (cs : List Char) : List Char :=
  (cs.reverse.takeWhile (fun c => c ≠ ':')).reverse

/-- Python `s.split(':', 1)[-1]`: the text after the first colon, or the
whole string when no colon occurs (used by the string mode of
`extract_value_from_info`). -/
def afterFirstColon (cs : List Char) : List Char :=
  if (cs.any (fun c => c = ':')) then (cs.dropWhile (fun c => c ≠ ':')).drop 1
  else cs

/-- Digit string to number. -/
def digitsToNat (ds : List Char) : Nat :=
  ds.foldl (fun a c => 10 * a + (c.toNat - '0'.toNat)) 0

/-- Python `int(s)` on a decimal literal: optional surrounding whitespace,
optional sign, one or more digits; anything else raises `ValueError`
(modelled as `none`). -/
def parsePyInt (cs0 : List Char) : Option Int :=
  let cs := pyStrip cs0
  let signed : (Int × List Char) :=
    match cs with
    | '+' :: r => (1, r)
    | '-' :: r => (-1, r)
    | r => (1, r)
  if signed.2 ≠ [] && signed.2.all Char.isDigit then
    some (signed.1 * (digitsToNat signed.2 : Int))
  else
    none

/-! ## `string.Template` substitution (utils/templates.py, autoprocessing.py)

`filling_template_rotational`, `filling_template_serial` and
`filling_template_wedges` render with `Template(..).substitute(mapping)`;
`filling_configuration_file` renders with `Template(..).safe_substitute`.
The embedding follows CPython's `string.Template` scanner: a `$` begins
either an escape `$$`, a named placeholder `$identifier`, a braced
placeholder `$\x7bidentifier\x7d`, or is invalid.  `substitute` raises
`KeyError` on an unresolved placeholder and `ValueError` on an invalid
`$`; `safe_substitute` leaves both verbatim. -/

/-- First character of a Python `Template` identifier: `[_a-zA-Z]`. -/
def isIdStart (c : Char) : Bool :=
  c = '_' || ('a' ≤ c && c ≤ 'z') || ('A' ≤ c && c ≤ 'Z')

/-- Subsequent identifier characters: `[_a-zA-Z0-9]`. -/
def isIdChar (c : Char) : Bool :=
  isIdStart c || ('0' ≤ c && c ≤ '9')

/-- Longest identifier at the head of the input (empty when the first
character is not an identifier start). -/
def takeIdent (cs : List Char) : List Char × List Char :=
  match cs with
  | [] => ([], [])
  | c :: rest =>
    if isIdStart c then
      let s := rest.span isIdChar
      (c :: s.1, s.2)
    else ([], cs)

/-- Errors raised by `Template.substitute`. -/
inductive SubstErr where
  | missingKey (k : String)
  | invalidPlaceholder
  deriving DecidableEq, Repr

/-- One lexical step of the CPython `string.Template` scanner.  A `$`
begins an escape `$$`, a braced placeholder, a named placeholder, or is
invalid (in which case only the `$` itself is consumed); any other
character is a literal. -/
inductive Tok where
  | lit (c : Char)
  | esc
  | named (id : List Char)
  | braced (id : List Char)
  | invalid
  deriving DecidableEq, Repr

/-- Read the next token of a template text (`none` on empty input). -/
def nextTok : List Char → Option (Tok × List Char)
  | [] => none
  | '$' :: rest =>
    match rest with
    | '$' :: r2 => some (.esc, r2)
    | '{' :: r2 =>
      match takeIdent r2 with
      | ([], _) => some (.invalid, rest)
      | (id, r3) =>
        match r3 with
        | '}' :: r4 => some (.braced id, r4)
        | _ => some (.invalid, rest)
    | _ =>
      match takeIdent rest with
      | ([], _) => some (.invalid, rest)
      | (id, r3) => some (.named id, r3)
  | c :: rest => some (.lit c, rest)

/-- Per-token output of `safe_substitute`. -/
def emitSafe (m : List (String × String)) : Tok → List Char
  | .lit c => [c]
  | .esc => ['$']
  | .named id =>
    match m.lookup (String.mk id) with
    | some v => v.toList
    | none => '$' :: id
  | .braced id =>
    match m.lookup (String.mk id) with
    | some v => v.toList
    | none => '$' :: '{' :: (id ++ ['}'])
  | .invalid => ['$']

/-- Per-token output of `substitute`: an unresolved placeholder raises
`KeyError`, an invalid `$` raises `ValueError`. -/
def emitSub (m : List (String × String)) : Tok → Except SubstErr (List Char)
  | .lit c => .ok [c]
  | .esc => .ok ['$']
  | .named id =>
    match m.lookup (String.mk id) with
    | some v => .ok v.toList
    | none => .error (.missingKey (String.mk id))
  | .braced id =>
    match m.lookup (String.mk id) with
    | some v => .ok v.toList
    | none => .error (.missingKey (String.mk id))
  | .invalid => .error .invalidPlaceholder

/-- Fold over the token stream of a template text.  The recursion is
structural on a fuel argument so that the kernel can evaluate it; every
wrapper below passes `cs.length` as fuel, which suffices because each
token consumes at least one character (`nextTok_length` below). -/
def tokFoldFuel (f : Tok → α → α) (init : α) : Nat → List Char → α
  | 0, _ => init
  | fuel + 1, cs =>
    match nextTok cs with
    | none => init
    | some (t, rest) => f t (tokFoldFuel f init fuel rest)

/-- Model of `Template(text).safe_substitute(mapping)`: escapes collapse, resolved
placeholders are replaced, unresolved placeholders and invalid `$` are
left verbatim. -/
def safeSubst (m : List (String × String)) (cs : List Char) : List Char :=
  tokFoldFuel (fun t acc => emitSafe m t ++ acc) [] cs.length cs

/-- Model of `Template(text).substitute(mapping)`: as `safeSubst`, but an
unresolved placeholder raises `KeyError` and an invalid `$` raises
`ValueError`. -/
def substE (m : List (String × String)) (cs : List Char) :
    Except SubstErr (List Char) :=
  tokFoldFuel
    (fun t acc => (emitSub m t).bind (fun v => acc.map (fun r => v ++ r)))
    (.ok []) cs.length cs

/-! ## Info Extractor (utils/extract.py)

`extract_value_from_info(info_path, key, fallback=None, is_float=True,
is_string=False)` reads the descriptor file and scans its lines in order.
A line qualifies when the key occurs in it as a substring (Python `in`).
In string mode the first qualifying line is returned as the text after
its first colon, stripped.  In numeric mode the scan keeps going until a
qualifying line also contains a number, found by
`re.search(r"[-+]?[0-9]*\.?[0-9]+(?:[eE][-+]?[0-9]+)?", line)`; the match
is converted with `float` (or `int(float(..))`).  Every exception inside
the body is swallowed (`except Exception: pass`), so the caller always
receives a value; with no explicit fallback the default is `0` in numeric
mode and `""` in string mode.

The descriptor file is modelled as `Option (List String)`: `none` is an
absent or unreadable file (the `open` raises and the fallback is
returned), `some lines` the readable file's lines. -/

/-- A Python value as returned by `extract_value_from_info`: an `int`, a
`float` (exact decimal literals only occur, embedded as rationals), or a
`str`. -/
inductive PyVal where
  | pint (n : Int)
  | pfloat (q : Rat)
  | pstr (s : String)
  deriving DecidableEq, Repr

/-- Body of the regex `[0-9]*\.?[0-9]+` with backtracking resolved:
digits, an optional dot followed by at least one digit; a dot not
followed by a digit is dropped from the match. -/
def numBodyAt (cs : List Char) : Option (List Char × List Char) :=
  let p := cs.span Char.isDigit
  match p.2 with
  | '.' :: r2 =>
    let p2 := r2.span Char.isDigit
    if p2.1 ≠ [] then some (p.1 ++ '.' :: p2.1, p2.2)
    else if p.1 ≠ [] then some (p.1, p.2)
    else none
  | _ => if p.1 ≠ [] then some (p.1, p.2) else none

/-- The optional exponent group `(?:[eE][-+]?[0-9]+)?`: if no full
exponent follows, the group matches empty. -/
def expPartAt (cs : List Char) : List Char × List Char :=
  match cs with
  | e :: r =>
    if e = 'e' || e = 'E' then
      match r with
      | s :: r2 =>
        if s = '+' || s = '-' then
          let p := r2.span Char.isDigit
          if p.1 ≠ [] then (e :: s :: p.1, p.2) else ([], cs)
        else
          let p := r.span Char.isDigit
          if p.1 ≠ [] then (e :: p.1, p.2) else ([], cs)
      | [] => ([], cs)
    else ([], cs)
  | [] => ([], cs)

/-- Attempt the full number regex anchored at the head of the input. -/
def numAt (cs : List Char) : Option (List Char) :=
  match cs with
  | c :: rest =>
    if c = '+' || c = '-' then
      match numBodyAt rest with
      | some (t, r) => some (c :: t ++ (expPartAt r).1)
      | none => none
    else
      match numBodyAt cs with
      | some (t, r) => some (t ++ (expPartAt r).1)
      | none => none
  | [] => none

/-- Model of `re.search` of the number regex: leftmost match wins. -/
def firstNumTok : List Char → Option (List Char)
  | [] => none
  | c :: rest =>
    match numAt (c :: rest) with
    | some t => some t
    | none => firstNumTok rest

/-- Value of a matched number token (`float(tok)` in Python): mantissa
digits with optional fraction, times ten to the signed exponent.  Built
with `mkRat` over machine-free `Nat`/`Int` arithmetic. -/
def ratOfTok (t : List Char) : Rat :=
  let unsigned : List Char → Rat := fun u =>
    let mant := u.takeWhile (fun c => c ≠ 'e' && c ≠ 'E')
    let expPart := u.dropWhile (fun c => c ≠ 'e' && c ≠ 'E')
    let exNeg : Bool :=
      match expPart with
      | _ :: '-' :: _ => true
      | _ => false
    let exDigits : List Char :=
      match expPart with
      | _ :: '-' :: ds => ds
      | _ :: '+' :: ds => ds
      | _ :: ds => ds
      | [] => []
    let ex := digitsToNat exDigits
    let ip := mant.takeWhile (fun c => c ≠ '.')
    let fp := (mant.dropWhile (fun c => c ≠ '.')).drop 1
    let m : Nat := digitsToNat ip * 10 ^ fp.length + digitsToNat fp
    if exNeg then mkRat (m : Int) (10 ^ fp.length * 10 ^ ex)
    else mkRat ((m : Int) * (10 : Int) ^ ex) (10 ^ fp.length)
  match t with
  | '+' :: r => unsigned r
  | '-' :: r => -(unsigned r)
  | r => unsigned r

/-- Python `int(float)`: truncation toward zero. -/
def pyTruncRat (q : Rat) : Int :=
  if 0 ≤ q then q.floor else -((-q).floor)

/-- The default used when `fallback` is `None`:
`fallback = "" if is_string else 0`. -/
def defaultFallback (is_string : Bool) : PyVal :=
  if is_string then .pstr "" else .pint 0

/-- Python `key in line` on strings: contiguous substring test. -/
def pyIn (key : List Char) : List Char → Bool
  | [] => key.isEmpty
  | c :: rest => key.isPrefixOf (c :: rest) || pyIn key rest

/-- The scan over the lines of a readable descriptor file.  Returns
`none` when no line yields a value (the Python loop falls through to
`return fallback`). -/
def extractScan (key : List Char) (is_float is_string : Bool) :
    List String → Option PyVal
  | [] => none
  | line :: rest =>
    if pyIn key line.toList then
      if is_string then
        some (.pstr (String.mk (pyStrip (afterFirstColon line.toList))))
      else
        match firstNumTok line.toList with
        | some tok =>
          if is_float then some (.pfloat (ratOfTok tok))
          else some (.pint (pyTruncRat (ratOfTok tok)))
        | none => extractScan key is_float is_string rest
    else extractScan key is_float is_string rest

/-- Model of `extract_value_from_info` (utils/extract.py).  `info` is the
descriptor file (`none`: absent or unreadable, so the `try` block raises
and the fallback is returned). -/
def extract_value_from_info (info : Option (List String)) (key : String)
    (fallback : Option PyVal := none) (is_float : Bool := true)
    (is_string : Bool := false) : PyVal :=
  let fb := fallback.getD (defaultFallback is_string)
  match info with
  | none => fb
  | some lines => (extractScan key.toList is_float is_string lines).getD fb

/-! ## Capacity Guard (utils/nodes.py)

`are_the_reserved_nodes_overloaded` runs `squeue -w <nodes>`, splits the
output into lines, and on `CalledProcessError` substitutes the empty
list; it returns whether the line count strictly exceeds the constant
threshold.  The query is modelled by its outcome: `Except Unit (List
String)`, where `.error ()` is the `CalledProcessError` case. -/

def LIMIT_FOR_RESERVED_NODES : Nat := 25

/-- Model of `are_the_reserved_nodes_overloaded` (utils/nodes.py). -/
def are_the_reserved_nodes_overloaded (query : Except Unit (List String)) : Bool :=
  let all_jobs := match query with
    | .ok lines => lines
    | .error _ => []
  all_jobs.length > LIMIT_FOR_RESERVED_NODES

/-! ## Metadata Resolver (autoprocessing.py, find_and_parse_metadata)

The glob candidates are modelled as a list of (file name, parse outcome).
`Candidate.unparsable` is a file whose `json.load` raises
`JSONDecodeError` (or whose `open` raises `FileNotFoundError`): both are
caught, logged and skipped.  A parsed file is an object with the three
top-level fields the function touches; the required-keys check covers
`beamtimeId` and `onlineAnalysis` only, while `data["corePath"]` is read
unconditionally afterwards (an uncaught `KeyError` when absent).  The
check that `base_path` itself exists (an immediate `FileNotFoundError`)
happens before globbing and is outside this model. -/

structure OnlineAnalysis where
  reservedNodes : Option (List String)
  sshPrivateKeyPath : Option String
  sshPublicKeyPath : Option String
  userAccount : Option String
  slurmPartition : Option String
  deriving DecidableEq, Repr

structure MetaJson where
  beamtimeId : Option String
  onlineAnalysis : Option OnlineAnalysis
  corePath : Option String
  deriving DecidableEq, Repr

inductive Candidate where
  | unparsable
  | parsed (j : MetaJson)
  deriving DecidableEq, Repr

structure MetaResult where
  beamtimeId : String
  corePath : String
  reservedNodes : String
  sshPrivateKeyPath : Option String
  sshPublicKeyPath : Option String
  userAccount : Option String
  file : String
  slurmPartition : Option String
  deriving DecidableEq, Repr

inductive MetaErr where
  | fileNotFound
  | keyError
  deriving DecidableEq, Repr

/-- Model of `",".join(online.get("reservedNodes", [])) if online.get("reservedNodes")
else ""`: `None` and the empty list are both falsy. -/
def joinReservedNodes (rn : Option (List String)) : String :=
  match rn with
  | none => ""
  | some [] => ""
  | some ls => String.intercalate "," ls

/-- The required-keys test `all(k in data for k in ["beamtimeId",
"onlineAnalysis"])`. -/
def hasRequiredKeys : Candidate → Bool
  | .unparsable => false
  | .parsed j => j.beamtimeId.isSome && j.onlineAnalysis.isSome

/-- Model of `find_and_parse_metadata` (autoprocessing.py): scan the candidates in
glob order, skip unparsable files and files lacking a required key, and
return the first valid one; raise `FileNotFoundError` when none remains. -/
def find_and_parse_metadata : List (String × Candidate) → Except MetaErr MetaResult
  | [] => .error .fileNotFound
  | (name, c) :: rest =>
    match c with
    | .unparsable => find_and_parse_metadata rest
    | .parsed j =>
      if hasRequiredKeys (.parsed j) then
        match j.beamtimeId, j.onlineAnalysis with
        | some bid, some online =>
          match j.corePath with
          | none => .error .keyError
          | some cp =>
            .ok { beamtimeId := bid, corePath := cp,
                  reservedNodes := joinReservedNodes online.reservedNodes,
                  sshPrivateKeyPath := online.sshPrivateKeyPath,
                  sshPublicKeyPath := online.sshPublicKeyPath,
                  userAccount := online.userAccount,
                  file := name,
                  slurmPartition := online.slurmPartition }
        | _, _ => find_and_parse_metadata rest
      else find_and_parse_metadata rest

/-! ## Dispatcher (autoprocessing.py, run) and the pipelines

`run(root, configuration, is_force, is_maxwell)` is modelled as a pure
function from an explicit folder state to a trace of events plus an
optional uncaught Python exception.  The folder state carries exactly the
filesystem facts the code consults: the regular files of the raw folder,
the lines of `info.txt` (`none` when absent, `some []` when empty), the
entries of the mirrored output directory (with, per entry, whether its
deletion would succeed), whether that directory already exists, the
`squeue` pending-job count, and whether an `sbatch` submission for this
folder would succeed.

Within the pipelines (utils/rotational.py, utils/wedges.py,
utils/serial.py) the control flow relevant to the dispatcher claims is
embedded: which template rendering is attempted (with the exact key set
supplied by the source; the rendered values themselves do not influence
control flow and are abstracted as empty strings), how many submissions
are attempted, that every submission uses `subprocess.run(...,
check=True)` — raising `CalledProcessError` on a non-zero exit — and when
the completion flag is touched.  Directory-creation and script-writing
side effects inside the pipelines are not traced. -/

inductive Pipeline where
  | rotational
  | wedge
  | serial
  deriving DecidableEq, Repr

inductive PyErr where
  | valueError
  | keyError
  | calledProcessError
  | zeroDivisionError
  deriving DecidableEq, Repr

inductive Event where
  | mkdirProc
  | deleteAttempt (name : String) (ok : Bool)
  | skipLogged
  | invoke (p : Pipeline)
  | submit (tag : String)
  | touchFlag (tag : String)
  deriving DecidableEq, Repr

/-- One entry of the mirrored output directory; `deleteOk` tells whether
`os.unlink`/`shutil.rmtree` on it would succeed. -/
structure PEntry where
  name : String
  deleteOk : Bool
  deriving DecidableEq, Repr

structure Folder where
  name : String
  files : List String
  info : Option (List String)
  procExists : Bool
  procEntries : List PEntry
  pendingJobs : Nat
  submitOk : Bool
  deriving DecidableEq, Repr

/-- The two template files a dispatch can render (resolved from the
configuration; `XDS_INP_template` and `geometry_for_processing`). -/
structure Config where
  xdsTmpl : List Char
  geomTmpl : List Char
  deriving DecidableEq, Repr

def MAX_PENDING_JOBS : Nat := 200

/-- The method classification of `run` (autoprocessing.py lines 252-260):
`if method == 'rotational': ... elif method == 'grid step' and
frames_per_position > 1: ... else: ...`. -/
def classify (method : String) (frames_per_position : Int) : Pipeline :=
  if method = "rotational" then .rotational
  else if method = "grid step" ∧ frames_per_position > 1 then .wedge
  else .serial

/-- Model of `method = next(f).split(':')[-1].strip()`. -/
def methodOfLine (line : String) : String :=
  String.mk (pyStrip (afterLastColon line.toList))

/-- The loop reading `frames/position` from the lines after the first:
the first line containing `frames/position:` (case-insensitively) is
parsed with `int(line.split(':')[-1].strip())`; a non-integer raises
`ValueError`. -/
def parseFpp : List String → Except PyErr Int
  | [] => .ok 1
  | line :: rest =>
    if pyIn "frames/position:".toList (pyLower line.toList) then
      match parsePyInt (afterLastColon line.toList) with
      | some n => .ok n
      | none => .error .valueError
    else parseFpp rest

/-- The filter building `res` in `rotational_processing`
(utils/rotational.py line 126-131): `(f.endswith(".h5") or
f.endswith(".cxi")) and 'master' in f or f.endswith(".cbf")`. -/
def isRotFrame (file : String) : Bool :=
  ((".h5".toList.isSuffixOf file.toList || ".cxi".toList.isSuffixOf file.toList)
      && pyIn "master".toList file.toList)
    || ".cbf".toList.isSuffixOf file.toList

/-- The keys of `template_data` in `filling_template_rotational`
(utils/templates.py lines 45-56). -/
def rotTemplateKeys : List String :=
  ["DETECTOR_DISTANCE", "ORGX", "ORGY", "NFRAMES",
   "NAME_TEMPLATE_OF_DATA_FRAMES", "STARTING_ANGLE", "OSCILLATION_RANGE",
   "WAVELENGTH", "SPACE_GROUP_NUMBER", "UNIT_CELL_CONSTANTS"]

/-- The keys of `template_data` in `filling_template_serial`
(utils/templates.py lines 105-111). -/
def serialTemplateKeys : List String :=
  ["DETECTOR_DISTANCE", "ORGX", "ORGY", "PHOTON_ENERGY", "data_h5path"]

/-- Outcome of a `Template(..).substitute` call whose mapping has the
given key set (the rendered values never influence control flow and are
abstracted as empty strings): `none` on success, the raised error
otherwise. -/
def fillWithKeys (keys : List String) (tmpl : List Char) : Option PyErr :=
  match substE (keys.map (fun k => (k, ""))) tmpl with
  | .ok _ => none
  | .error _ => some .keyError

/-- Model of `rotational_processing` (utils/rotational.py): collect the frame
files; when none exist the body under `if res:` is skipped entirely (no
submission, no flag).  Otherwise render `XDS.INP` via
`Template.substitute`, submit the XDS job and the autoPROC job (each
`subprocess.run(..., check=True)`), then touch `flag.txt`. -/
def rotational_processing (cfg : Config) (f : Folder) :
    List Event × Option PyErr :=
  let res := f.files.filter isRotFrame
  if res.isEmpty then ([], none)
  else
    match fillWithKeys rotTemplateKeys cfg.xdsTmpl with
    | some e => ([], some e)
    | none =>
      if f.submitOk then
        ([.submit "xds", .submit "autoPROC", .touchFlag f.name], none)
      else ([], some .calledProcessError)

/-- The filename pattern `^(.*)_(\d{6})_(\d{5})\.cbf$` of
`group_cbf_by_position` (utils/wedges.py line 129): returns the six-digit
position field. -/
def wedgePos (file : String) : Option String :=
  if ".cbf".toList.isSuffixOf file.toList then
    let core := file.toList.take (file.toList.length - 4)
    let rev := core.reverse
    let f5 := rev.take 5
    if f5.length = 5 && f5.all Char.isDigit then
      match rev.drop 5 with
      | '_' :: r =>
        let p6 := r.take 6
        if p6.length = 6 && p6.all Char.isDigit then
          match r.drop 6 with
          | '_' :: _ => some (String.mk p6.reverse)
          | _ => none
        else none
      | _ => none
    else none
  else none

/-- Model of `wedges_processing` (utils/wedges.py): group the `.cbf` files by
their position field; with no group the loop body never runs.  Per
position: render the wedge template, submit one XDS job
(`subprocess.run(..., check=True)`) and touch that position's
`flag.txt`.  The wedge template rendering additionally reads а CBF header
from disk; its outcome does not affect the dispatcher claims and is
abstracted as succeeding. -/
def wedges_processing (f : Folder) : List Event × Option PyErr :=
  let ps := (f.files.filterMap wedgePos).eraseDups
  if ps.isEmpty then ([], none)
  else if f.submitOk then
    ((ps.map (fun p => [Event.submit p, Event.touchFlag p])).flatten, none)
  else ([], some .calledProcessError)

/-- Number of iterations of `range(0, NFRAMES, chunk_size)` with
`chunk_size = 1000`. -/
def chunkCount (n : Int) : Nat :=
  if n ≤ 0 then 0 else (n.toNat + 999) / 1000

/-- Model of `serial_processing` (utils/serial.py): `filling_template_serial`
extracts the descriptor values — computing `PHOTON_ENERGY = 12400 /
WAVELENGTH`, a `ZeroDivisionError` when the wavelength is missing (the
extractor falls back to `0`) — then renders the geometry template via
`Template.substitute`; afterwards one `serial_data_processing` call per
1000-frame chunk submits jobs (`subprocess.run(..., check=True)`; the
per-chunk file splitting produces a source-determined number of
submissions, abstracted as one submission per chunk), and finally
`flag.txt` is touched.  `NFRAMES` comes from
`extract_value_from_info(info, "frames", fallback=1, is_float=False)`. -/
def serial_processing (cfg : Config) (f : Folder) :
    List Event × Option PyErr :=
  let wl := extract_value_from_info f.info "wavelength"
  if wl = .pint 0 ∨ wl = .pfloat 0 then ([], some .zeroDivisionError)
  else
    match fillWithKeys serialTemplateKeys cfg.geomTmpl with
    | some e => ([], some e)
    | none =>
      let nframes : Int :=
        match extract_value_from_info f.info "frames" (some (.pint 1)) false with
        | .pint n => n
        | _ => 1
      let chunks := chunkCount nframes
      if chunks = 0 then ([.touchFlag f.name], none)
      else if f.submitOk then
        (((List.range chunks).map (fun i => Event.submit (Nat.repr i)))
          ++ [.touchFlag f.name], none)
      else ([], some .calledProcessError)

/-- Dispatch to the pipeline selected by `classify`. -/
def pipelineRun (cfg : Config) (p : Pipeline) (f : Folder) :
    List Event × Option PyErr :=
  match p with
  | .rotational => rotational_processing cfg f
  | .wedge => wedges_processing f
  | .serial => serial_processing cfg f

/-- Whether `flag.txt` is present among the output-directory entries. -/
def flagPresent (entries : List PEntry) : Bool :=
  entries.any (fun e => e.name = "flag.txt")

/-- The force-mode cleanup loop (autoprocessing.py lines 233-243): when
force-mode is on and `flag.txt` exists, every entry of the mirrored
output directory is deleted, each deletion wrapped in `try/except`
(failures are logged and skipped, the loop continues). -/
def cleanTrace (is_force : Bool) (f : Folder) : List Event :=
  if is_force && flagPresent f.procEntries then
    f.procEntries.map (fun e => Event.deleteAttempt e.name e.deleteOk)
  else []

/-- The output-directory entries surviving the (possible) cleanup. -/
def entriesAfterClean (is_force : Bool) (f : Folder) : List PEntry :=
  if is_force && flagPresent f.procEntries then
    f.procEntries.filter (fun e => ¬ e.deleteOk)
  else f.procEntries

/-- The condition of the skip CHECK (autoprocessing.py lines 246-248),
evaluated after the cleanup: flag still present, or the pending count
above `MAX_PENDING_JOBS`, or intermediate XDS results present. -/
def skipLoggedCond (is_force : Bool) (f : Folder) : Bool :=
  flagPresent (entriesAfterClean is_force f)
    || f.pendingJobs > MAX_PENDING_JOBS
    || (entriesAfterClean is_force f).any (fun e => e.name = "CORRECT.LP")
    || (entriesAfterClean is_force f).any (fun e => e.name = "XYCORR.LP")

/-- Model of `run(root, configuration, is_force, is_maxwell)` (autoprocessing.py).

Control flow, in source order: eligibility check (`info.txt` exists,
non-empty, and more than one file) with an early return; parse of the
method line and of `frames/position`; creation of the mirrored output
directory when missing; the `squeue` pending query (a failure is caught
and yields an empty list, so only the resulting count appears in the
state); the force-mode cleanup loop; the skip CHECK — whose body consists
solely of a log statement, so control falls through regardless — and
finally the classification and exactly one pipeline call.  `is_maxwell`
only alters partition/reservation strings inside the generated job script
and is not part of the model. -/
def run (cfg : Config) (is_force : Bool) (f : Folder) :
    List Event × Option PyErr :=
  match f.info with
  | some (firstLine :: restLines) =>
    if f.files.length > 1 then
      match parseFpp restLines with
      | .error e => ([], some e)
      | .ok fpp =>
        let p := classify (methodOfLine firstLine) fpp
        let pout := pipelineRun cfg p f
        ((if f.procExists then [] else [Event.mkdirProc])
          ++ cleanTrace is_force f
          ++ (if skipLoggedCond is_force f then [Event.skipLogged] else [])
          ++ Event.invoke p :: pout.1,
         pout.2)
    else ([], none)
  | _ => ([], none)

/-- One pass of the offline scan loop (autoprocessing.py lines 456-460):
`for root, dirs, files in os.walk(raw_directory): run(root, ...)`, with
no exception handling around `run`.  Returns, per folder actually
reached, its name and trace; an uncaught exception stops the walk. -/
def scanPass (cfg : Config) (is_force : Bool) :
    List Folder → List (String × List Event) × Option PyErr
  | [] => ([], none)
  | f :: fs =>
    let r := run cfg is_force f
    match r.2 with
    | some e => ([(f.name, r.1)], some e)
    | none =>
      let rest := scanPass cfg is_force fs
      ((f.name, r.1) :: rest.1, rest.2)

/-! ## Auxiliary definitions used by the theorems -/

/-- The source text a token was read from. -/
def tokText : Tok → List Char
  | .lit c => [c]
  | .esc => ['$', '$']
  | .named id => '$' :: id
  | .braced id => '$' :: '{' :: (id ++ ['}'])
  | .invalid => ['$']

/-- No character of the text is the `$` delimiter. -/
def noDollar (cs : List Char) : Bool :=
  cs.all (fun c => c ≠ '$')

/-- A token `safe_substitute` leaves exactly as it stands in the source
text: a literal, an invalid `$`, or an unresolved placeholder. -/
def untouchedTok (m : List (String × String)) : Tok → Bool
  | .lit _ => true
  | .esc => false
  | .named id => (m.lookup (String.mk id)).isNone
  | .braced id => (m.lookup (String.mk id)).isNone
  | .invalid => true

/-- The template text contains no `$$` escape and no placeholder resolved
by the mapping. -/
def untouchedBy (m : List (String × String)) (cs : List Char) : Bool :=
  tokFoldFuel (fun t b => untouchedTok m t && b) true cs.length cs

/-- A token whose rendering is free of `$`: a non-`$` literal or a
placeholder resolved to a `$`-free value. -/
def cleanTok (m : List (String × String)) : Tok → Bool
  | .lit _ => true
  | .esc => false
  | .invalid => false
  | .named id =>
    match m.lookup (String.mk id) with
    | some v => noDollar v.toList
    | none => false
  | .braced id =>
    match m.lookup (String.mk id) with
    | some v => noDollar v.toList
    | none => false

/-- Every `$` of the template text begins a placeholder resolved by the
mapping to a value free of `$`; no escapes, no invalid `$`. -/
def cleanFor (m : List (String × String)) (cs : List Char) : Bool :=
  tokFoldFuel (fun t b => cleanTok m t && b) true cs.length cs

/-- Event classifiers for trace statements. -/
def isInvokeEvent : Event → Bool
  | .invoke _ => true
  | _ => false

def isSubmitEvent : Event → Bool
  | .submit _ => true
  | _ => false

def isTouchFlagEvent : Event → Bool
  | .touchFlag _ => true
  | _ => false

/-- Number of pipeline invocations in a trace. -/
def countInvokes (ev : List Event) : Nat :=
  (ev.filter isInvokeEvent).length

/-! ### Concrete fixtures for the evaluated theorems -/

/-- Both template files empty: no placeholder, so rendering succeeds. -/
def cfg0 : Config := { xdsTmpl := [], geomTmpl := [] }

/-- An eligible rotational folder whose mirrored output directory already
contains the completion flag `flag.txt`. -/
def flaggedRotFolder : Folder :=
  { name := "rot1"
    files := ["info.txt", "img_000001.cbf"]
    info := some ["method: rotational"]
    procExists := true
    procEntries := [{ name := "flag.txt", deleteOk := true }]
    pendingJobs := 0
    submitOk := true }

/-- An eligible rotational folder whose `sbatch` submission exits
non-zero. -/
def failingSubmitFolder : Folder :=
  { name := "bad"
    files := ["info.txt", "img_000001.cbf"]
    info := some ["method: rotational"]
    procExists := true
    procEntries := []
    pendingJobs := 0
    submitOk := false }

/-- An eligible rotational folder with a clean output directory. -/
def healthyFolder : Folder :=
  { name := "good"
    files := ["info.txt", "img_000001.cbf"]
    info := some ["method: rotational"]
    procExists := true
    procEntries := []
    pendingJobs := 0
    submitOk := true }

/-- A flagged output directory in which one entry refuses deletion. -/
def stubbornEntriesFolder : Folder :=
  { name := "rot2"
    files := ["info.txt", "img_000001.cbf"]
    info := some ["method: rotational"]
    procExists := true
    procEntries := [{ name := "flag.txt", deleteOk := true },
                    { name := "junk", deleteOk := false },
                    { name := "old.log", deleteOk := true }]
    pendingJobs := 0
    submitOk := true }

/-- A descriptor file in which a `frames/position:` line precedes the
`frames:` line. -/
def framesShadowedDescriptor : List String :=
  ["method: grid step", "frames/position: 5", "frames: 100"]

/-! ## General lemmas about the embedded functions -/

theorem takeIdent_snd_length (cs : List Char) :
    (takeIdent cs).2.length ≤ cs.length := by
  match cs with
  | [] => simp [takeIdent]
  | c :: rest =>
    simp only [takeIdent]
    split
    · simp only [List.span_eq_take_drop]
      have h := (rest.dropWhile_sublist isIdChar).length_le
      simpa using Nat.le_succ_of_le h
    · exact Nat.le_refl _

theorem nextTok_length {cs rest : List Char} {t : Tok}
    (h : nextTok cs = some (t, rest)) : rest.length < cs.length := by
  unfold nextTok at h
  repeat' split at h
  all_goals simp_all
  all_goals try simp_arith
  all_goals
    first
    | (rename_i _ _ r2 _ _ _ _ _ hti
       have h2 := takeIdent_snd_length r2; rw [hti] at h2; simp at h2; omega)
    | (rename_i _ r1 _ _ _ _ _ _ _ hti
       have h2 := takeIdent_snd_length r1; rw [hti] at h2; simp at h2; omega)

theorem tokFoldFuel_adequate {α : Type} (f : Tok → α → α) (init : α) :
    ∀ (fuel fuel2 : Nat) (cs : List Char),
      cs.length ≤ fuel → cs.length ≤ fuel2 →
      tokFoldFuel f init fuel cs = tokFoldFuel f init fuel2 cs := by
  intro fuel
  induction fuel with
  | zero =>
    intro fuel2 cs h1 h2
    have : cs = [] := List.length_eq_zero.mp (Nat.le_zero.mp h1)
    subst this
    cases fuel2 with
    | zero => rfl
    | succ n => simp [tokFoldFuel, nextTok]
  | succ n ih =>
    intro fuel2 cs h1 h2
    cases fuel2 with
    | zero =>
      have : cs = [] := List.length_eq_zero.mp (Nat.le_zero.mp h2)
      subst this
      simp [tokFoldFuel, nextTok]
    | succ n2 =>
      simp only [tokFoldFuel]
      cases hnt : nextTok cs with
      | none => rfl
      | some tr =>
        rcases tr with ⟨t, rest⟩
        have hlen := nextTok_length hnt
        change f t (tokFoldFuel f init n rest) = f t (tokFoldFuel f init n2 rest)
        rw [ih n2 rest (by omega) (by omega)]

/-- Unfolding equation for the fuel-based token fold at fuel =
`cs.length`. -/
theorem tokFold_eq {α : Type} (f : Tok → α → α) (init : α) (cs : List Char) :
    tokFoldFuel f init cs.length cs
      = match nextTok cs with
        | none => init
        | some (t, rest) => f t (tokFoldFuel f init rest.length rest) := by
  cases hcs : cs with
  | nil => simp [tokFoldFuel, nextTok]
  | cons c rest0 =>
    simp only [List.length_cons, tokFoldFuel]
    cases hnt : nextTok (c :: rest0) with
    | none => rfl
    | some tr =>
      rcases tr with ⟨t, rest⟩
      have hlen := nextTok_length hnt
      change f t (tokFoldFuel f init rest0.length rest)
        = f t (tokFoldFuel f init rest.length rest)
      rw [tokFoldFuel_adequate f init rest0.length rest.length rest
        (by simp at hlen; omega) (Nat.le_refl _)]

theorem safeSubst_eq (m : List (String × String)) (cs : List Char) :
    safeSubst m cs
      = match nextTok cs with
        | none => []
        | some (t, rest) => emitSafe m t ++ safeSubst m rest :=
  tokFold_eq (fun t acc => emitSafe m t ++ acc) [] cs

theorem substE_eq (m : List (String × String)) (cs : List Char) :
    substE m cs
      = match nextTok cs with
        | none => .ok []
        | some (t, rest) =>
          (emitSub m t).bind (fun v => (substE m rest).map (fun r => v ++ r)) :=
  tokFold_eq (fun t acc => (emitSub m t).bind (fun v => acc.map (fun r => v ++ r)))
    (.ok []) cs

theorem untouchedBy_eq (m : List (String × String)) (cs : List Char) :
    untouchedBy m cs
      = match nextTok cs with
        | none => true
        | some (t, rest) => untouchedTok m t && untouchedBy m rest :=
  tokFold_eq (fun t b => untouchedTok m t && b) true cs

theorem cleanFor_eq (m : List (String × String)) (cs : List Char) :
    cleanFor m cs
      = match nextTok cs with
        | none => true
        | some (t, rest) => cleanTok m t && cleanFor m rest :=
  tokFold_eq (fun t b => cleanTok m t && b) true cs

theorem takeIdent_append (cs : List Char) :
    (takeIdent cs).1 ++ (takeIdent cs).2 = cs := by
  match cs with
  | [] => simp [takeIdent]
  | c :: rest =>
    simp only [takeIdent]
    split
    · simp [List.span_eq_take_drop, List.takeWhile_append_dropWhile]
    · simp

theorem nextTok_none {cs : List Char} (h : nextTok cs = none) : cs = [] := by
  match cs with
  | [] => rfl
  | c :: rest =>
    unfold nextTok at h
    repeat' split at h
    all_goals simp_all

theorem takeIdent_eq_append {cs a b : List Char}
    (h : takeIdent cs = (a, b)) : a ++ b = cs := by
  have h2 := takeIdent_append cs
  rw [h] at h2
  simpa using h2

/-- Induction along the token stream. -/
theorem tokInduction (motive : List Char → Prop) (base : motive [])
    (step : ∀ cs t rest, nextTok cs = some (t, rest) → motive rest → motive cs) :
    ∀ cs, motive cs := by
  have H : ∀ (n : Nat) (cs : List Char), cs.length ≤ n → motive cs := by
    intro n
    induction n with
    | zero =>
      intro cs h
      rw [List.length_eq_zero.mp (Nat.le_zero.mp h)]
      exact base
    | succ n ih =>
      intro cs h
      cases hnt : nextTok cs with
      | none => rw [nextTok_none hnt]; exact base
      | some tr =>
        rcases tr with ⟨t, rest⟩
        have hlen := nextTok_length hnt
        exact step cs t rest hnt (ih rest (by omega))
  exact fun cs => H cs.length cs (Nat.le_refl _)

theorem nextTok_decomp {cs rest : List Char} {t : Tok}
    (h : nextTok cs = some (t, rest)) : cs = tokText t ++ rest := by
  unfold nextTok at h
  repeat' split at h
  all_goals simp at h
  all_goals obtain ⟨h1, h2⟩ := h
  all_goals subst h1
  all_goals subst h2
  all_goals first
    | (simp [tokText]; done)
    | (rename_i hti
       have h3 := takeIdent_eq_append hti
       rw [← h3]; simp [tokText])

theorem nextTok_lit_ne_dollar {cs rest : List Char} {c : Char}
    (h : nextTok cs = some (.lit c, rest)) : c ≠ '$' := by
  unfold nextTok at h
  repeat' split at h
  all_goals simp_all

theorem nextTok_of_ne_dollar {c : Char} {rest : List Char} (h : c ≠ '$') :
    nextTok (c :: rest) = some (.lit c, rest) := by
  unfold nextTok
  split
  · rename_i heq; simp at heq
  · rename_i heq
    rw [List.cons.injEq] at heq
    exact absurd heq.1 h
  · rename_i heq
    rw [List.cons.injEq] at heq
    simp [heq.1, heq.2]

/-! ## Claim theorems -/

/-- C6: the Capacity Guard `are_the_reserved_nodes_overloaded` returns
`True` iff the number of lines counted from the `squeue` output strictly
exceeds the fixed threshold 25; a failed query (caught
`CalledProcessError`) counts as zero lines and yields `False`. -/
theorem capacity_guard_overloaded_iff :
    LIMIT_FOR_RESERVED_NODES = 25 ∧
    (∀ q : Except Unit (List String),
       are_the_reserved_nodes_overloaded q = true ↔
         ∃ ls, q = .ok ls ∧ ls.length > 25) ∧
    (∀ e, are_the_reserved_nodes_overloaded (.error e) = false) := by
  refine ⟨rfl, ?_, ?_⟩
  · intro q
    cases q with
    | ok ls => simp [are_the_reserved_nodes_overloaded, LIMIT_FOR_RESERVED_NODES]
    | error e => simp [are_the_reserved_nodes_overloaded, LIMIT_FOR_RESERVED_NODES]
  · intro e
    simp [are_the_reserved_nodes_overloaded, LIMIT_FOR_RESERVED_NODES]

/-- Witness for C6 at a failed query. -/
theorem capacity_guard_overloaded_iff_witness :
    are_the_reserved_nodes_overloaded (.error ()) = false :=
  capacity_guard_overloaded_iff.2.2 ()

theorem extractScan_no_key {key : List Char} {iF iS : Bool} :
    ∀ lines : List String, (∀ l ∈ lines, pyIn key l.toList = false) →
      extractScan key iF iS lines = none := by
  intro lines h
  induction lines with
  | nil => rfl
  | cons l rest ih =>
    have hl := h l (by simp)
    simp only [extractScan, hl, Bool.false_eq_true, if_false]
    exact ih (fun x hx => h x (by simp [hx]))

/-- C9: the Info Extractor always returns a value (the embedding is a
total function; every exception of the Python body is caught), and in
each failure case — file absent/unreadable, file empty, key occurring in
no line — it returns the fallback, whose default is `0` in numeric mode
and `""` in string mode. -/
theorem extractor_fallback_on_failure :
    (∀ (key : String) (fb : Option PyVal) (iF iS : Bool),
       extract_value_from_info none key fb iF iS = fb.getD (defaultFallback iS)) ∧
    (∀ (key : String) (fb : Option PyVal) (iF iS : Bool),
       extract_value_from_info (some []) key fb iF iS = fb.getD (defaultFallback iS)) ∧
    (∀ (lines : List String) (key : String) (fb : Option PyVal) (iF iS : Bool),
       (∀ l ∈ lines, pyIn key.toList l.toList = false) →
       extract_value_from_info (some lines) key fb iF iS = fb.getD (defaultFallback iS)) ∧
    defaultFallback false = .pint 0 ∧ defaultFallback true = .pstr "" := by
  refine ⟨fun _ _ _ _ => rfl, fun _ _ _ _ => rfl, ?_, rfl, rfl⟩
  intro lines key fb iF iS h
  have h2 : extractScan key.data iF iS lines = none := extractScan_no_key lines h
  simp [extract_value_from_info, h2]

/-- Witness for C9 at a concrete descriptor lacking the key. -/
theorem extractor_fallback_on_failure_witness :
    (∀ l ∈ (["method: rotational"] : List String),
       pyIn "wavelength".toList l.toList = false) ∧
    extract_value_from_info (some ["method: rotational"]) "wavelength"
        none true false = .pint 0 := by
  refine ⟨by decide, ?_⟩
  simpa using extractor_fallback_on_failure.2.2.1 ["method: rotational"]
    "wavelength" none true false (by decide)

/-- C10: key lookup in `extract_value_from_info` is substring-based over
whole lines; the first line containing the key and a number determines
the numeric result (the first number anywhere in that line), regardless
of later lines.  Consequently, on a descriptor in which
`frames/position: 5` precedes `frames: 100`, extracting `frames` returns
5 (the frames-per-position value) although the same call on the
`frames: 100` line alone returns 100. -/
theorem substring_lookup_first_line_wins :
    (∀ (pre post : List String) (line key : String) (fb : Option PyVal)
       (tok : List Char),
       (∀ l ∈ pre, pyIn key.toList l.toList = false) →
       pyIn key.toList line.toList = true →
       firstNumTok line.toList = some tok →
       extract_value_from_info (some (pre ++ line :: post)) key fb false false
         = .pint (pyTruncRat (ratOfTok tok))) ∧
    extract_value_from_info (some framesShadowedDescriptor) "frames"
        (some (.pint 1)) false false = .pint 5 ∧
    extract_value_from_info (some ["frames: 100"]) "frames"
        (some (.pint 1)) false false = .pint 100 := by
  refine ⟨?_, by decide, by decide⟩
  intro pre post line key fb tok hpre hline htok
  induction pre with
  | nil =>
    have hline2 : pyIn key.data line.data = true := hline
    have htok2 : firstNumTok line.data = some tok := htok
    simp [extract_value_from_info, extractScan, hline2, htok2]
  | cons l rest ih =>
    have hl := hpre l (by simp)
    simp only [List.cons_append, extract_value_from_info, extractScan, hl,
      Bool.false_eq_true, if_false] at ih ⊢
    exact ih (fun x hx => hpre x (by simp [hx]))

/-- Witness for C10's universally quantified part at the shadowed
descriptor. -/
theorem substring_lookup_first_line_wins_witness :
    extract_value_from_info
        (some (["method: grid step"] ++ "frames/position: 5" :: ["frames: 100"]))
        "frames" (some (.pint 1)) false false
      = .pint (pyTruncRat (ratOfTok "5".toList)) :=
  substring_lookup_first_line_wins.1 ["method: grid step"] ["frames: 100"]
    "frames/position: 5" "frames" (some (.pint 1)) "5".toList
    (by decide) (by decide) (by decide)

/-- C8: `find_and_parse_metadata` skips a candidate whose JSON fails to
parse or which lacks a required key (`beamtimeId`, `onlineAnalysis`) and
keeps scanning; when every candidate is invalid it raises
`FileNotFoundError`. -/
theorem metadata_invalid_candidates_skipped :
    (∀ (name : String) (c : Candidate) (rest : List (String × Candidate)),
       hasRequiredKeys c = false →
       find_and_parse_metadata ((name, c) :: rest) = find_and_parse_metadata rest) ∧
    (∀ cands : List (String × Candidate),
       (∀ nc ∈ cands, hasRequiredKeys nc.2 = false) →
       find_and_parse_metadata cands = .error .fileNotFound) := by
  have hskip : ∀ (name : String) (c : Candidate) (rest : List (String × Candidate)),
      hasRequiredKeys c = false →
      find_and_parse_metadata ((name, c) :: rest) = find_and_parse_metadata rest := by
    intro name c rest h
    cases c with
    | unparsable => rfl
    | parsed j => simp [find_and_parse_metadata, h]
  refine ⟨hskip, ?_⟩
  intro cands h
  induction cands with
  | nil => rfl
  | cons nc rest ih =>
    rw [show nc = (nc.1, nc.2) from rfl, hskip nc.1 nc.2 rest (h nc (by simp))]
    exact ih (fun x hx => h x (by simp [hx]))

/-- Witness for C8 on a concrete candidate list: one unparsable file and
one parsed file missing both required keys. -/
theorem metadata_invalid_candidates_skipped_witness :
    find_and_parse_metadata
        [("beamtime-metadata-1.json", .unparsable),
         ("beamtime-metadata-2.json",
          .parsed { beamtimeId := none, onlineAnalysis := none, corePath := none })]
      = .error .fileNotFound :=
  metadata_invalid_candidates_skipped.2 _ (by decide)

/-- C4: a folder lacking a non-empty `info.txt` or containing at most one
file makes `run` a no-op: the trace is empty (no directory creation, no
deletion, no pipeline invocation, no submission, no flag) and no
exception escapes. -/
theorem ineligible_folder_is_noop :
    ∀ (cfg : Config) (is_force : Bool) (f : Folder),
      (f.info = none ∨ f.info = some [] ∨ f.files.length ≤ 1) →
      run cfg is_force f = ([], none) := by
  intro cfg isf f h
  rcases h with h | h | h
  · simp [run, h]
  · simp [run, h]
  · rcases hinfo : f.info with _ | lines
    · simp [run, hinfo]
    · cases lines with
      | nil => simp [run, hinfo]
      | cons l ls =>
        simp only [run, hinfo]
        rw [if_neg (by omega)]

/-- Witness for C4 at a concrete folder with an empty `info.txt`. -/
theorem ineligible_folder_is_noop_witness :
    run cfg0 false
        { name := "incomplete", files := ["info.txt", "a.cbf"], info := some [],
          procExists := false, procEntries := [], pendingJobs := 0,
          submitOk := true }
      = ([], none) :=
  ineligible_folder_is_noop cfg0 false _ (by decide)

/-- C1 (code bug): on a folder whose mirrored output directory contains
`flag.txt`, with force-mode off, `run` logs the skip message but — the
skip branch having no `return` — still invokes the rotational pipeline,
submits two jobs and rewrites the flag, instead of submitting nothing and
leaving the directory unchanged. -/
theorem flagged_folder_still_dispatches :
    flagPresent flaggedRotFolder.procEntries = true ∧
    (run cfg0 false flaggedRotFolder).1
      = [.skipLogged, .invoke .rotational, .submit "xds", .submit "autoPROC",
         .touchFlag "rot1"] ∧
    ((run cfg0 false flaggedRotFolder).1.filter isSubmitEvent).length = 2 ∧
    (run cfg0 false flaggedRotFolder).2 = none := by
  decide

/-- Counterexample to C2 as stated: the first folder's submission failure
(`CalledProcessError` from `subprocess.run(..., check=True)`) terminates
the scan pass; the second folder is never dispatched. -/
theorem submission_failure_kills_scan_loop :
    (run cfg0 false failingSubmitFolder).2 = some .calledProcessError ∧
    (scanPass cfg0 false [failingSubmitFolder, healthyFolder]).2
      = some .calledProcessError ∧
    ((scanPass cfg0 false [failingSubmitFolder, healthyFolder]).1.map Prod.fst)
      = ["bad"] := by
  decide

/-- C2 (amended): a non-zero exit of the external submission command
raises `CalledProcessError`, which propagates uncaught through the
pipeline and `run`; the scan pass stops at that folder and no later
folder of the pass is dispatched. -/
theorem submission_error_propagates_uncaught :
    ∀ (cfg : Config) (is_force : Bool) (pre : List Folder) (f : Folder)
      (post : List Folder) (e : PyErr),
      (∀ g ∈ pre, (run cfg is_force g).2 = none) →
      (run cfg is_force f).2 = some e →
      scanPass cfg is_force (pre ++ f :: post)
        = (pre.map (fun g => (g.name, (run cfg is_force g).1))
            ++ [(f.name, (run cfg is_force f).1)], some e) := by
  intro cfg isf pre f post e hpre hf
  induction pre with
  | nil => simp [scanPass, hf]
  | cons g gs ih =>
    have hg := hpre g (by simp)
    have ih2 := ih (fun x hx => hpre x (by simp [hx]))
    simp [scanPass, hg, ih2]

/-- Witness for C2's amended theorem on the concrete two-folder pass. -/
theorem submission_error_propagates_uncaught_witness :
    scanPass cfg0 false [failingSubmitFolder, healthyFolder]
      = ([(failingSubmitFolder.name, (run cfg0 false failingSubmitFolder).1)],
         some .calledProcessError) := by
  simpa using submission_error_propagates_uncaught cfg0 false []
    failingSubmitFolder [healthyFolder] .calledProcessError (by simp) (by decide)

/-! ## Template-rendering lemmas (claim C5) -/

theorem emitSafe_untouched {m : List (String × String)} {t : Tok}
    (h : untouchedTok m t = true) : emitSafe m t = tokText t := by
  cases t with
  | lit c => rfl
  | esc => simp [untouchedTok] at h
  | named id =>
    simp only [untouchedTok, Option.isNone_iff_eq_none] at h
    simp [emitSafe, h, tokText]
  | braced id =>
    simp only [untouchedTok, Option.isNone_iff_eq_none] at h
    simp [emitSafe, h, tokText]
  | invalid => rfl

theorem untouched_render_id (m : List (String × String)) :
    ∀ cs, untouchedBy m cs = true → safeSubst m cs = cs := by
  apply tokInduction
    (motive := fun cs => untouchedBy m cs = true → safeSubst m cs = cs)
  · intro _; rfl
  · intro cs t rest hnt ih hu
    rw [untouchedBy_eq m cs, hnt] at hu
    have hu2 : (untouchedTok m t && untouchedBy m rest) = true := hu
    simp only [Bool.and_eq_true] at hu2
    rw [safeSubst_eq m cs, hnt]
    show emitSafe m t ++ safeSubst m rest = cs
    rw [ih hu2.2, emitSafe_untouched hu2.1]
    exact (nextTok_decomp hnt).symm

theorem noDollar_render_id (m : List (String × String)) :
    ∀ cs, noDollar cs = true → safeSubst m cs = cs := by
  intro cs
  induction cs with
  | nil => intro _; rfl
  | cons c rest ih =>
    intro h
    simp only [noDollar, List.all_cons, Bool.and_eq_true] at h
    have hc : c ≠ '$' := by simpa using h.1
    rw [safeSubst_eq, nextTok_of_ne_dollar hc]
    show emitSafe m (.lit c) ++ safeSubst m rest = c :: rest
    rw [ih (by simpa [noDollar] using h.2)]
    rfl

theorem emitSafe_clean {m : List (String × String)} {t : Tok}
    {cs rest : List Char} (hnt : nextTok cs = some (t, rest))
    (h : cleanTok m t = true) : noDollar (emitSafe m t) = true := by
  cases t with
  | lit c =>
    have hc := nextTok_lit_ne_dollar hnt
    simp [emitSafe, noDollar, hc]
  | esc => simp [cleanTok] at h
  | invalid => simp [cleanTok] at h
  | named id =>
    simp only [cleanTok] at h
    cases hlk : m.lookup (String.mk id) with
    | none => rw [hlk] at h; simp at h
    | some v => rw [hlk] at h; simpa [emitSafe, hlk] using h
  | braced id =>
    simp only [cleanTok] at h
    cases hlk : m.lookup (String.mk id) with
    | none => rw [hlk] at h; simp at h
    | some v => rw [hlk] at h; simpa [emitSafe, hlk] using h

theorem clean_render_noDollar (m : List (String × String)) :
    ∀ cs, cleanFor m cs = true → noDollar (safeSubst m cs) = true := by
  apply tokInduction
    (motive := fun cs => cleanFor m cs = true → noDollar (safeSubst m cs) = true)
  · intro _; rfl
  · intro cs t rest hnt ih h
    rw [cleanFor_eq m cs, hnt] at h
    have h2 : (cleanTok m t && cleanFor m rest) = true := h
    simp only [Bool.and_eq_true] at h2
    rw [safeSubst_eq m cs, hnt]
    show noDollar (emitSafe m t ++ safeSubst m rest) = true
    simp only [noDollar, List.all_append, Bool.and_eq_true]
    refine ⟨?_, ?_⟩
    · simpa [noDollar] using emitSafe_clean hnt h2.1
    · simpa [noDollar] using ih h2.2

theorem emitSub_ok {m : List (String × String)} {t : Tok} {v : List Char}
    (h : emitSub m t = .ok v) : emitSafe m t = v := by
  cases t with
  | lit c => simpa [emitSub, emitSafe] using h
  | esc => simpa [emitSub, emitSafe] using h
  | invalid => simp [emitSub] at h
  | named id =>
    simp only [emitSub] at h
    cases hlk : m.lookup (String.mk id) with
    | none => rw [hlk] at h; simp at h
    | some w => rw [hlk] at h; simp at h; simpa [emitSafe, hlk] using h
  | braced id =>
    simp only [emitSub] at h
    cases hlk : m.lookup (String.mk id) with
    | none => rw [hlk] at h; simp at h
    | some w => rw [hlk] at h; simp at h; simpa [emitSafe, hlk] using h

theorem substE_ok_eq_safe (m : List (String × String)) :
    ∀ cs out, substE m cs = .ok out → out = safeSubst m cs := by
  apply tokInduction
    (motive := fun cs => ∀ out, substE m cs = .ok out → out = safeSubst m cs)
  · intro out h
    have h2 : (Except.ok [] : Except SubstErr (List Char)) = .ok out := h
    simp at h2
    rw [h2]
    rfl
  · intro cs t rest hnt ih out h
    rw [substE_eq m cs, hnt] at h
    have h2 : (emitSub m t).bind
        (fun v => (substE m rest).map (fun r => v ++ r)) = .ok out := h
    cases hemit : emitSub m t with
    | error e => rw [hemit] at h2; simp [Except.bind] at h2
    | ok v =>
      rw [hemit] at h2
      cases hrest : substE m rest with
      | error e => rw [hrest] at h2; simp [Except.bind, Except.map] at h2
      | ok r =>
        rw [hrest] at h2
        simp only [Except.bind, Except.map] at h2
        have h3 : v ++ r = out := by simpa using h2
        rw [safeSubst_eq m cs, hnt]
        show out = emitSafe m t ++ safeSubst m rest
        rw [← ih r hrest, emitSub_ok hemit, ← h3]

/-- Counterexample to C5 as stated: the renderer of
`filling_template_rotational` is `Template.substitute`, which raises
`KeyError` on a placeholder with no entry in the mapping instead of
leaving it verbatim — both on the raw call and through the pipeline
rendering `fillWithKeys rotTemplateKeys`. -/
theorem substitute_raises_on_unresolved :
    substE [] "$MISSING".toList = .error (.missingKey "MISSING") ∧
    fillWithKeys rotTemplateKeys "$MISSING".toList = some .keyError := by
  constructor <;> rfl

/-- C5 (amended): rendering in `filling_configuration_file` uses
`Template.safe_substitute`, a total function: a template none of whose
placeholders resolves (and without `$$` escapes) is returned byte-for-byte
— unresolved placeholders are left verbatim — and rendering twice yields
byte-identical output whenever every `$` of the template begins a
placeholder resolved to a `$`-free value; whenever `Template.substitute`
(used by `filling_template_rotational` and the other pipeline fillers)
succeeds at all, it agrees with `safe_substitute`. -/
theorem safe_substitute_amended :
    (∀ (m : List (String × String)) (cs : List Char),
       untouchedBy m cs = true → safeSubst m cs = cs) ∧
    (∀ (m : List (String × String)) (cs : List Char),
       cleanFor m cs = true → safeSubst m (safeSubst m cs) = safeSubst m cs) ∧
    (∀ (m : List (String × String)) (cs out : List Char),
       substE m cs = .ok out → out = safeSubst m cs) :=
  ⟨fun m cs h => untouched_render_id m cs h,
   fun m cs h => noDollar_render_id m _ (clean_render_noDollar m cs h),
   fun m cs out h => substE_ok_eq_safe m cs out h⟩

/-- Witness for C5's amended theorem at concrete templates. -/
theorem safe_substitute_amended_witness :
    safeSubst [] "run $X".toList = "run $X".toList ∧
    safeSubst [("A", "ok")] (safeSubst [("A", "ok")] "a $A b".toList)
      = safeSubst [("A", "ok")] "a $A b".toList ∧
    "a ok b".toList = safeSubst [("A", "ok")] "a $A b".toList :=
  ⟨safe_substitute_amended.1 [] _ (by rfl),
   safe_substitute_amended.2.1 [("A", "ok")] _ (by rfl),
   safe_substitute_amended.2.2 [("A", "ok")] _ _ (by rfl)⟩

/-! ## Dispatcher decomposition and trace lemmas (claims C3, C7) -/

/-- For an eligible folder with a parsable descriptor, `run` is the
concatenation of the mkdir trace, the cleanup trace, the skip log and
exactly one pipeline invocation followed by that pipeline's trace. -/
theorem run_eligible_decomp (cfg : Config) (is_force : Bool) (f : Folder)
    {l : String} {ls : List String} {fpp : Int}
    (hinfo : f.info = some (l :: ls)) (hlen : f.files.length > 1)
    (hfpp : parseFpp ls = .ok fpp) :
    run cfg is_force f =
      ((if f.procExists then [] else [Event.mkdirProc])
        ++ cleanTrace is_force f
        ++ (if skipLoggedCond is_force f then [Event.skipLogged] else [])
        ++ Event.invoke (classify (methodOfLine l) fpp)
          :: (pipelineRun cfg (classify (methodOfLine l) fpp) f).1,
       (pipelineRun cfg (classify (methodOfLine l) fpp) f).2) := by
  simp only [run, hinfo]
  rw [if_pos hlen, hfpp]

theorem countInvokes_append (a b : List Event) :
    countInvokes (a ++ b) = countInvokes a + countInvokes b := by
  simp [countInvokes, List.filter_append]

theorem countInvokes_eq_zero {ev : List Event}
    (h : ∀ e ∈ ev, isInvokeEvent e = false) : countInvokes ev = 0 := by
  simp only [countInvokes, List.length_eq_zero, List.filter_eq_nil_iff]
  intro a ha
  simp [h a ha]

/-- Every event a pipeline emits is a submission or a flag touch. -/
theorem pipelineRun_events (cfg : Config) (p : Pipeline) (f : Folder) :
    ∀ e ∈ (pipelineRun cfg p f).1,
      (isSubmitEvent e || isTouchFlagEvent e) = true := by
  intro e he
  cases p with
  | rotational =>
    simp only [pipelineRun, rotational_processing] at he
    split at he
    · simp at he
    · split at he
      · simp at he
      · split at he
        · simp at he
          rcases he with h | h | h <;> rw [h] <;> rfl
        · simp at he
  | wedge =>
    simp only [pipelineRun, wedges_processing] at he
    split at he
    · simp at he
    · split at he
      · simp only [List.mem_flatten] at he
        obtain ⟨l2, hl2, hel⟩ := he
        simp only [List.mem_map] at hl2
        obtain ⟨pz, -, hpz⟩ := hl2
        rw [← hpz] at hel
        simp at hel
        rcases hel with h | h <;> rw [h] <;> rfl
      · simp at he
  | serial =>
    simp only [pipelineRun, serial_processing] at he
    split at he
    · simp at he
    · split at he
      · simp at he
      · split at he
        · simp at he; rw [he]; rfl
        · split at he
          · simp only [List.mem_append] at he
            rcases he with h | h
            · simp only [List.mem_map] at h
              obtain ⟨i, -, hi⟩ := h
              rw [← hi]; rfl
            · simp at h; rw [h]; rfl
          · simp at he

/-- C3: the classification of `run` is total and mutually exclusive —
`rotational` exactly for method `"rotational"`, wedge exactly for method
`"grid step"` with frames-per-position above 1, serial for every other
combination — and every eligible folder with a parsable descriptor gets
exactly one pipeline invocation, namely the classified one. -/
theorem classification_total_and_exclusive :
    (∀ (m : String) (fpp : Int),
       (classify m fpp = .rotational ↔ m = "rotational") ∧
       (classify m fpp = .wedge ↔ (m = "grid step" ∧ fpp > 1)) ∧
       (classify m fpp = .serial
         ↔ (¬ m = "rotational" ∧ ¬ (m = "grid step" ∧ fpp > 1)))) ∧
    (∀ (cfg : Config) (is_force : Bool) (f : Folder) (l : String)
       (ls : List String) (fpp : Int),
       f.info = some (l :: ls) → f.files.length > 1 → parseFpp ls = .ok fpp →
       countInvokes (run cfg is_force f).1 = 1 ∧
       Event.invoke (classify (methodOfLine l) fpp) ∈ (run cfg is_force f).1) := by
  constructor
  · intro m fpp
    by_cases h1 : m = "rotational"
    · subst h1
      simp [classify]
    · by_cases h2 : m = "grid step" ∧ fpp > 1
      · obtain ⟨h2a, h2b⟩ := h2
        subst h2a
        simp [classify, h1, h2b]
      · simp [classify, h1, h2]
  · intro cfg isf f l ls fpp hinfo hlen hfpp
    rw [run_eligible_decomp cfg isf f hinfo hlen hfpp]
    constructor
    · have h1 : countInvokes (if f.procExists then [] else [Event.mkdirProc]) = 0 := by
        split <;> simp [countInvokes, isInvokeEvent]
      have h2 : countInvokes (cleanTrace isf f) = 0 := by
        apply countInvokes_eq_zero
        intro e he
        simp only [cleanTrace] at he
        split at he
        · simp only [List.mem_map] at he
          obtain ⟨a, -, ha⟩ := he
          rw [← ha]; rfl
        · simp at he
      have h3 : countInvokes
          (if skipLoggedCond isf f then [Event.skipLogged] else []) = 0 := by
        split <;> simp [countInvokes, isInvokeEvent]
      have h4 : countInvokes
          (pipelineRun cfg (classify (methodOfLine l) fpp) f).1 = 0 := by
        apply countInvokes_eq_zero
        intro e he
        have h5 := pipelineRun_events cfg _ f e he
        cases e <;> simp_all [isSubmitEvent, isTouchFlagEvent, isInvokeEvent]
      rw [countInvokes_append, countInvokes_append, countInvokes_append,
        h1, h2, h3]
      simp only [countInvokes, List.filter_cons] at h4 ⊢
      simp [isInvokeEvent, h4]
    · simp [List.mem_append]

/-- Witness for C3's dispatch part on a concrete eligible folder. -/
theorem classification_total_and_exclusive_witness :
    countInvokes (run cfg0 false healthyFolder).1 = 1 ∧
    Event.invoke (classify (methodOfLine "method: rotational") 1)
      ∈ (run cfg0 false healthyFolder).1 :=
  classification_total_and_exclusive.2 cfg0 false healthyFolder
    "method: rotational" [] 1 rfl (by decide) rfl

/-- C7: with force-mode on and the completion flag present, `run` attempts
the deletion of every output-directory entry — a failing deletion is
skipped and the loop continues — and all these deletion attempts lie in a
prefix of the trace containing no job submission. -/
theorem force_mode_cleans_before_submission :
    ∀ (cfg : Config) (f : Folder) (l : String) (ls : List String) (fpp : Int),
      f.info = some (l :: ls) → f.files.length > 1 → parseFpp ls = .ok fpp →
      flagPresent f.procEntries = true →
      ∃ pre rest, (run cfg true f).1 = pre ++ rest ∧
        (∀ ev ∈ pre, isSubmitEvent ev = false) ∧
        (∀ e ∈ f.procEntries,
          Event.deleteAttempt e.name e.deleteOk ∈ pre) := by
  intro cfg f l ls fpp hinfo hlen hfpp hflag
  rw [run_eligible_decomp cfg true f hinfo hlen hfpp]
  refine ⟨(if f.procExists then [] else [Event.mkdirProc])
      ++ cleanTrace true f
      ++ (if skipLoggedCond true f then [Event.skipLogged] else [])
      ++ [Event.invoke (classify (methodOfLine l) fpp)],
    (pipelineRun cfg (classify (methodOfLine l) fpp) f).1, ?_, ?_, ?_⟩
  · simp
  · intro ev hev
    simp only [List.mem_append] at hev
    rcases hev with ((h | h) | h) | h
    · split at h
      · simp at h
      · simp at h; rw [h]; rfl
    · simp only [cleanTrace] at h
      split at h
      · simp only [List.mem_map] at h
        obtain ⟨a, -, ha⟩ := h
        rw [← ha]; rfl
      · simp at h
    · split at h
      · simp at h; rw [h]; rfl
      · simp at h
    · simp at h; rw [h]; rfl
  · intro e he
    simp only [List.mem_append]
    left; left; right
    simp [cleanTrace, hflag, List.mem_map]
    exact ⟨e, he, rfl, rfl⟩

/-- Witness for C7 on a folder whose output directory holds three
entries, one of which refuses deletion. -/
theorem force_mode_cleans_before_submission_witness :
    ∃ pre rest, (run cfg0 true stubbornEntriesFolder).1 = pre ++ rest ∧
      (∀ ev ∈ pre, isSubmitEvent ev = false) ∧
      (∀ e ∈ stubbornEntriesFolder.procEntries,
        Event.deleteAttempt e.name e.deleteOk ∈ pre) :=
  force_mode_cleans_before_submission cfg0 stubbornEntriesFolder
    "method: rotational" [] 1 rfl (by decide) rfl (by decide)

end P09





